import Mathlib

/-!
# Verification of the screenshot-service core (browser pool / capture pipeline)

Shallow embedding of the TypeScript sources of the screenshot API:

* `src/screenshot.ts` — blocklist matcher (`globToRegex`, `shouldBlockUrl`),
  readiness waiter (`waitForImages`, `scrollToBottom`), capture orchestrator
  (`ScreenshotService.capture`) and batch fan-out (`captureMany`);
* `src/browser-pool.ts` — `BrowserPool` (`acquirePage`, the `release` closure,
  `createPooledPage`, `getStats`);
* `src/index.ts` — the `/batch` handler's aggregation of a batch response.

Pure computations are translated directly.  Stateful / asynchronous code is
embedded as explicit state passing plus traces of the externally visible
actions; the possible outcomes of awaited browser operations are supplied by
an environment record, so every exit path of the original code corresponds to
an environment value.
-/

/-! ## Blocklist matcher (`globToRegex` / `shouldBlockUrl` in screenshot.ts)

`globToRegex` escapes every regex metacharacter of the pattern, turns each
`*` into `.*` and anchors the whole pattern (`^...$`) with the `i` flag.
Over the pattern alphabet actually used (literals and `*`), this is exactly
anchored glob matching, case-insensitive, with `*` matching any run of
characters.  `globMatchL` implements that semantics directly on lowered
character lists: a `*` consumes an arbitrary prefix, i.e. the rest of the
pattern must match some suffix of the remaining input. -/

/-- All suffixes of a character list, longest first (including the empty one). -/
def suffixes : List Char → List (List Char)
  | [] => [[]]
  | c :: cs => (c :: cs) :: suffixes cs

/-- Anchored glob matching on character lists: `*` matches any run of
characters, every other character matches itself.  Mirrors the regex
`^escaped-pattern-with-star-as-dot-star$` built by `globToRegex`. -/
def globMatchL : List Char → List Char → Bool
  | [], u => u.isEmpty
  | '*' :: ps, u => (suffixes u).any (fun s => globMatchL ps s)
  | _ :: _, [] => false
  | c :: ps, d :: us => c == d && globMatchL ps us

/-- Case-insensitive anchored glob match on strings (the `i` regex flag is
modelled by lowering both sides; patterns and URLs are ASCII). -/
def globMatch (pattern url : String) : Bool :=
  globMatchL (pattern.data.map Char.toLower) (url.data.map Char.toLower)

/-- The static blocklist `BLOCKED_PATTERNS` of screenshot.ts, verbatim. -/
def BLOCKED_PATTERNS : List String := [
  -- Ad networks
  "*://*.doubleclick.net/*",
  "*://*.googlesyndication.com/*",
  "*://*.googleadservices.com/*",
  "*://*.google-analytics.com/*",
  "*://*.googletagmanager.com/*",
  "*://*.googletagservices.com/*",
  "*://*.facebook.net/*",
  "*://*.facebook.com/tr/*",
  "*://*.fbcdn.net/signals/*",
  "*://*.amazon-adsystem.com/*",
  "*://*.adsrvr.org/*",
  "*://*.adnxs.com/*",
  "*://*.criteo.com/*",
  "*://*.criteo.net/*",
  "*://*.outbrain.com/*",
  "*://*.taboola.com/*",
  "*://*.pubmatic.com/*",
  "*://*.rubiconproject.com/*",
  "*://*.openx.net/*",
  "*://*.casalemedia.com/*",
  "*://*.advertising.com/*",
  "*://*.adform.net/*",
  "*://*.ads-twitter.com/*",
  "*://*.moatads.com/*",
  "*://*.quantserve.com/*",
  "*://*.scorecardresearch.com/*",
  "*://*.rlcdn.com/*",
  "*://*.bluekai.com/*",
  "*://*.krxd.net/*",
  "*://*.exelator.com/*",
  "*://*.everesttech.net/*",
  -- Cookie consent popups
  "*://*.cookielaw.org/*",
  "*://*.cookiebot.com/*",
  "*://*.onetrust.com/*",
  "*://*.trustarc.com/*",
  "*://*.cookiepro.com/*",
  "*://*.consentmanager.net/*",
  "*://*.usercentrics.eu/*",
  "*://*.privacymanager.io/*",
  "*://*.termly.io/*",
  "*://*.iubenda.com/*",
  -- Tracking pixels and analytics
  "*://*.hotjar.com/*",
  "*://*.fullstory.com/*",
  "*://*.mixpanel.com/*",
  "*://*.segment.io/*",
  "*://*.segment.com/*",
  "*://*.amplitude.com/*",
  "*://*.heapanalytics.com/*",
  "*://*.mouseflow.com/*",
  "*://*.luckyorange.com/*",
  "*://*.crazyegg.com/*",
  "*://*.inspectlet.com/*",
  -- More ad networks
  "*://*.adskeeper.com/*",
  "*://*.mgid.com/*",
  "*://*.revcontent.com/*",
  "*://*.content.ad/*",
  "*://*.zergnet.com/*"]

/-- `shouldBlockUrl` from screenshot.ts: the URL matches some compiled
blocklist pattern. -/
def shouldBlockUrl (url : String) : Bool :=
  BLOCKED_PATTERNS.any (fun p => globMatch p url)

/-! ## Readiness waiter, image part (`waitForImages` in screenshot.ts)

The in-page promise installs a `setTimeout(resolve, maxWait)`, collects
`document.images`, restricts to viewport-intersecting ones when
`viewportOnly`, keeps the not-yet-`complete` ones, resolves at once when that
set is empty, and otherwise resolves when every one of them has fired `load`
or `error` — or when the timeout fires, whichever happens first.  We embed an
image element by its bounding rectangle, its `complete` flag and the time (in
ms after the wait starts) at which its `load`/`error` event fires, `none`
meaning it never settles; the embedding computes the resolution time of the
promise. -/

/-- An `<img>` element as seen by `waitForImages`: bounding client rect,
`complete` flag, and when (if ever) its `load`/`error` event fires. -/
structure ImgEl where
  top : Int
  bottom : Int
  left : Int
  right : Int
  complete : Bool
  settlesAt : Option Nat
deriving DecidableEq, Repr

/-- The viewport-intersection test of `waitForImages` (`rect.top <
innerHeight && rect.bottom > 0 && rect.left < innerWidth && rect.right >
0`). -/
def inViewport (innerWidth innerHeight : Int) (img : ImgEl) : Bool :=
  img.top < innerHeight && img.bottom > 0 && img.left < innerWidth && img.right > 0

/-- `targetImages`: viewport-visible images when `viewportOnly`, else all. -/
def targetImagesOf (viewportOnly : Bool) (innerWidth innerHeight : Int)
    (imgs : List ImgEl) : List ImgEl :=
  if viewportOnly then imgs.filter (inViewport innerWidth innerHeight) else imgs

/-- `unloadedImages`: the target images with `complete` still false. -/
def unloadedOf (viewportOnly : Bool) (innerWidth innerHeight : Int)
    (imgs : List ImgEl) : List ImgEl :=
  (targetImagesOf viewportOnly innerWidth innerHeight imgs).filter (fun i => !i.complete)

/-- `some t` when every listed image settles, `t` being the time the last one
settles (the moment `loaded >= unloadedImages.length` first holds); `none`
when some image never settles. -/
def allSettleTime (l : List ImgEl) : Option Nat :=
  l.foldr (fun i acc =>
    match i.settlesAt, acc with
    | some t, some m => some (max t m)
    | _, _ => none) (some 0)

/-- Resolution time (ms) of the `waitForImages` promise: `0` when no target
image is pending, otherwise the earlier of the timeout and the moment the
last pending target image settles. -/
def waitForImagesTime (viewportOnly : Bool) (innerWidth innerHeight : Int)
    (imgs : List ImgEl) (maxWait : Nat) : Nat :=
  let unloaded := unloadedOf viewportOnly innerWidth innerHeight imgs
  if unloaded.isEmpty then 0
  else
    match allSettleTime unloaded with
    | some t => min maxWait t
    | none => maxWait

/-! ## Readiness waiter, scroll part (`scrollToBottom` in screenshot.ts)

The in-page interval fires every 100 ms: it reads
`document.body.scrollHeight`, scrolls down by `distance = 300`, adds 300 to
`totalHeight`, and once `totalHeight >= scrollHeight` clears the interval,
scrolls back to the top and resolves after a further 200 ms pause.  The
scrollable height may change between ticks, so it is embedded as a function
`h : Nat → Nat` giving the height read at each tick; the loop is embedded
with explicit fuel (the JS loop diverges when the height outgrows the
scrolled distance forever). -/

/-- The fixed scroll increment (`distance` in `scrollToBottom`). -/
def scrollDistance : Nat := 300

/-- One scroll-interval execution: at tick `k` (with `total` pixels already
scrolled) read `h k`, scroll by 300, and stop when the new total reaches the
height just read.  Returns the number of ticks performed, `none` when `fuel`
runs out first. -/
def scrollTicks (h : Nat → Nat) : Nat → Nat → Nat → Option Nat
  | 0, _, _ => none
  | fuel + 1, k, total =>
    let sh := h k
    let total1 := total + scrollDistance
    if sh ≤ total1 then some (k + 1)
    else scrollTicks h fuel (k + 1) total1

/-- In-page actions of the scroll pass. -/
inductive ScrollAct where
  | scrollBy (px : Nat)
  | scrollTop
  | pause (ms : Nat)
deriving DecidableEq, Repr

/-- Trace of `scrollToBottom`: the down-scroll steps, then the jump back to
the top, then the 200 ms pause before resolving. -/
def scrollToBottomTrace (h : Nat → Nat) (fuel : Nat) : Option (List ScrollAct) :=
  (scrollTicks h fuel 0 0).map (fun n =>
    List.replicate n (ScrollAct.scrollBy scrollDistance) ++ [ScrollAct.scrollTop, ScrollAct.pause 200])


/-! ## Capture orchestrator (`ScreenshotService.capture` in screenshot.ts)

`capture` acquires a page, optionally installs the blocklist route, sets the
viewport, navigates with `waitUntil: 'domcontentloaded'` and a 30 s timeout,
runs the scroll pass and/or the image wait, honours the optional delay, then
either exports a PDF or takes a screenshot; the `finally` block clears the
routes (`.catch(() => {})`), navigates to `about:blank` (`.catch(() => {})`)
and calls `release()`.  Each awaited browser operation may reject; an
environment record fixes the outcome of every such operation, and `capture`
is embedded as a function from the environment and options to the settled
primary result together with the trace of the actions performed.  `release`
itself never rejects (see `releaseRun` below: every fallible operation inside
it carries its own `.catch`), so it is a plain trace action here. -/

deriving instance DecidableEq for Except

/-- Device presets (`deviceViewports` in screenshot.ts). -/
inductive Device where
  | desktop
  | tablet
  | mobile
deriving DecidableEq, Repr

/-- `deviceViewports`: named preset to (width, height). -/
def deviceViewports : Device → Nat × Nat
  | .desktop => (1280, 720)
  | .tablet => (768, 1024)
  | .mobile => (375, 667)

/-- Output kinds (`type` in `ScreenshotOptions`). -/
inductive OutKind where
  | png
  | jpeg
  | pdf
deriving DecidableEq, Repr

/-- The `type` string of an output kind (as it appears at the HTTP boundary). -/
def outKindStr : OutKind → String
  | .png => "png"
  | .jpeg => "jpeg"
  | .pdf => "pdf"

/-- JavaScript `x || d` on an optional number: `0` is falsy, so it also
falls back to the default. -/
def jsOrNat (x : Option Nat) (d : Nat) : Nat :=
  match x with
  | some n => if n = 0 then d else n
  | none => d

/-- `ScreenshotOptions` from screenshot.ts (validated fields). -/
structure ScreenshotOptions where
  url : String
  fullPage : Option Bool := none
  type : Option OutKind := none
  quality : Option Nat := none
  width : Option Nat := none
  height : Option Nat := none
  delay : Option Nat := none
  device : Option Device := none
  blockAds : Option Bool := none
deriving DecidableEq, Repr

/-- The viewport chosen by `capture`: the device preset when a device is
given, else explicit width/height with JS `||` defaults 1280x720. -/
def viewportOf (opts : ScreenshotOptions) : Nat × Nat :=
  match opts.device with
  | some d => deviceViewports d
  | none => (jsOrNat opts.width 1280, jsOrNat opts.height 720)

/-- Outcomes of the awaited browser operations inside one `capture` call:
`Except.error e` means the corresponding awaited promise rejects with
message `e`.  Bytes are modelled as `List Nat`. -/
structure CaptureEnv where
  routeResult : Except String Unit
  viewportResult : Except String Unit
  gotoResult : Except String Unit
  scrollResult : Except String Unit
  imagesResult : Except String Unit
  delayResult : Except String Unit
  pdfResult : Except String (List Nat)
  shotResult : Except String (List Nat)
  unrouteResult : Except String Unit
  blankResult : Except String Unit
deriving DecidableEq, Repr

/-- Externally visible actions of one `capture` call, in program order. -/
inductive Act where
  | acquire
  | installRoute
  | setViewport (w h : Nat)
  | goto (url : String) (waitUntil : String) (timeoutMs : Nat)
  | scrollPass
  | waitImages (viewportOnly : Bool) (timeoutMs : Nat)
  | delay (ms : Nat)
  | exportPdf
  | screenshot (fullPage : Bool) (kind : OutKind) (quality : Option Nat)
  | unrouteAll
  | gotoBlank
  | release
deriving DecidableEq, Repr

/-- Sequencing of one awaited `Unit`-valued step inside the `try` block: a
rejection aborts the rest of the body (its error becomes the primary error);
on success the rest runs. -/
def stepE (r : Except String Unit) (a : List Act)
    (rest : Except String (List Nat) × List Act) : Except String (List Nat) × List Act :=
  match r with
  | .error e => (.error e, a)
  | .ok _ => (rest.1, a ++ rest.2)

/-- `page.pdf(...)` when `options.type === 'pdf'`, else `page.screenshot(...)`
with the JS defaults (`fullPage ?? false`, `type || 'png'`, and `quality ||
80` only for jpeg). -/
def shootPart (env : CaptureEnv) (opts : ScreenshotOptions) :
    Except String (List Nat) × List Act :=
  if opts.type = some OutKind.pdf then
    (env.pdfResult, [Act.exportPdf])
  else
    (env.shotResult,
      [Act.screenshot (opts.fullPage.getD false) (opts.type.getD OutKind.png)
        (if opts.type.getD OutKind.png = OutKind.jpeg
         then some (jsOrNat opts.quality 80) else none)])

/-- `if (options.delay && options.delay > 0) page.waitForTimeout(delay * 1000)`
then the shot. -/
def delayPart (env : CaptureEnv) (opts : ScreenshotOptions) :
    Except String (List Nat) × List Act :=
  match opts.delay with
  | some d =>
    if 0 < d then stepE env.delayResult [Act.delay (d * 1000)] (shootPart env opts)
    else shootPart env opts
  | none => shootPart env opts

/-- Whole-page captures run `scrollToBottom` then `waitForImages(page, false)`;
viewport captures run `waitForImages(page, true)`; then the rest. -/
def waitPart (env : CaptureEnv) (opts : ScreenshotOptions) :
    Except String (List Nat) × List Act :=
  if opts.fullPage.getD false then
    stepE env.scrollResult [Act.scrollPass]
      (stepE env.imagesResult [Act.waitImages false 5000] (delayPart env opts))
  else
    stepE env.imagesResult [Act.waitImages true 5000] (delayPart env opts)

/-- `page.goto(url, { waitUntil: 'domcontentloaded', timeout: 30000 })` then
the rest. -/
def gotoPart (env : CaptureEnv) (opts : ScreenshotOptions) :
    Except String (List Nat) × List Act :=
  stepE env.gotoResult [Act.goto opts.url "domcontentloaded" 30000] (waitPart env opts)

/-- `page.setViewportSize(viewport)` then the rest. -/
def vpPart (env : CaptureEnv) (opts : ScreenshotOptions) :
    Except String (List Nat) × List Act :=
  stepE env.viewportResult
    [Act.setViewport (viewportOf opts).1 (viewportOf opts).2] (gotoPart env opts)

/-- The `try` block of `capture`: optional route installation
(`blockAds ?? true`), then viewport, navigation, readiness, delay, output. -/
def captureBody (env : CaptureEnv) (opts : ScreenshotOptions) :
    Except String (List Nat) × List Act :=
  if opts.blockAds.getD true then
    stepE env.routeResult [Act.installRoute] (vpPart env opts)
  else vpPart env opts

/-- `.catch(() => {})` on a cleanup step: its rejection is swallowed. -/
def swallow (_ : Except String Unit) : Except String Unit := Except.ok ()

/-- The `finally` block: `unrouteAll` (errors swallowed), `goto('about:blank')`
(errors swallowed), then `release()` (total, never rejects).  Returns the
block's own outcome — a rejecting `finally` would replace the primary result,
which is why both fallible steps carry `.catch`. -/
def runFinally (env : CaptureEnv) : Except String Unit × List Act :=
  match swallow env.unrouteResult with
  | .error e => (.error e, [Act.unrouteAll])
  | .ok _ =>
    match swallow env.blankResult with
    | .error e => (.error e, [Act.unrouteAll, Act.gotoBlank])
    | .ok _ => (.ok (), [Act.unrouteAll, Act.gotoBlank, Act.release])

/-- `ScreenshotService.capture`: acquire, run the body, then the `finally`
block; per JS semantics a `finally` that completes normally leaves the
primary outcome untouched, while a throwing `finally` would replace it. -/
def capture (env : CaptureEnv) (opts : ScreenshotOptions) :
    Except String (List Nat) × List Act :=
  let body := captureBody env opts
  let fin := runFinally env
  (match fin.1 with
   | .ok _ => body.1
   | .error e => .error e,
   Act.acquire :: body.2 ++ fin.2)

/-! ## Browser pool (`BrowserPool` in browser-pool.ts)

A `PooledPage` holds a page/context handle (identified here by a stable id),
the `inUse` flag and the creation timestamp; the pool is the `pages` array.
`createPooledPage` awaits `browser.newContext()` and `context.newPage()`,
then pushes the fresh entry (free) onto `pages` and returns it. -/

/-- One entry of the `pages` array (`PooledPage` in browser-pool.ts); the
opaque page/context handle is identified by `id`. -/
structure PooledPage where
  id : Nat
  inUse : Bool
  createdAt : Nat
deriving DecidableEq, Repr

/-- The mutable pool state: the `pages` array plus a supply of fresh handle
ids for newly created contexts. -/
structure PoolState where
  pages : List PooledPage
  nextId : Nat
deriving DecidableEq, Repr

/-- `this.pages.find((p) => !p.inUse)`. -/
def findFree (pages : List PooledPage) : Option PooledPage :=
  pages.find? (fun p => !p.inUse)

/-- Setting a given entry's `inUse` flag (`pooledPage.inUse = true`). -/
def markUse (pages : List PooledPage) (i : Nat) : List PooledPage :=
  pages.map (fun p => if p.id = i then { p with inUse := true } else p)

/-- The pure effect of `createPooledPage` once its awaits have resolved: push
a fresh, free entry onto `pages`. -/
def pushFresh (s : PoolState) (now : Nat) : PoolState :=
  { pages := s.pages ++ [{ id := s.nextId, inUse := false, createdAt := now }],
    nextId := s.nextId + 1 }

/-- `getStats()`. -/
def getStats (s : PoolState) : Nat × Nat × Nat :=
  (s.pages.length,
   (s.pages.filter (fun p => !p.inUse)).length,
   (s.pages.filter (fun p => p.inUse)).length)

/-! ### The `release` closure (browser-pool.ts lines 89-102)

`release` marks the entry free; when its age exceeds `maxPageAge` and the
entry is still in `pages`, it splices it out, `await`s
`context.close().catch(() => {})` and fires `createPooledPage().catch(...)`
without awaiting it.  The embedding separates the operations the releasing
caller's `await release()` waits on from the fire-and-forget ones.  Every
fallible operation inside `release` carries a `.catch`, so `release` never
rejects — it is a total function here. -/

/-- `maxPageAge` (5 minutes, in ms). -/
def maxPageAge : Nat := 5 * 60 * 1000

/-- Operations performed by `release`. -/
inductive RelAct where
  | markFree (id : Nat)
  | closeContext (id : Nat)
  | createReplacement
deriving DecidableEq, Repr

/-- Result of one `release()` call: the new pool state, the operations the
releasing caller waits on before `release()` resolves, and the
fire-and-forget operations it starts without awaiting. -/
structure ReleaseOut where
  state : PoolState
  awaited : List RelAct
  spawned : List RelAct
deriving DecidableEq, Repr

/-- The `release` closure for the entry with id `pid` created at
`createdAt`, executed at time `now` (JS `Date.now() - createdAt >
maxPageAge`; `this.pages.indexOf(pooledPage)` is the membership test on the
captured object). -/
def releaseRun (s : PoolState) (pid createdAt now : Nat) : ReleaseOut :=
  let pages1 := s.pages.map (fun p => if p.id = pid then { p with inUse := false } else p)
  if maxPageAge < now - createdAt then
    if pages1.any (fun p => p.id = pid) then
      { state := { s with pages := pages1.filter (fun p => ¬p.id = pid) },
        awaited := [RelAct.markFree pid, RelAct.closeContext pid],
        spawned := [RelAct.createReplacement] }
    else
      { state := { s with pages := pages1 },
        awaited := [RelAct.markFree pid], spawned := [] }
  else
    { state := { s with pages := pages1 },
      awaited := [RelAct.markFree pid], spawned := [] }

/-! ### Sequential `acquirePage` (browser-pool.ts lines 72-105)

`acquirePage` scans for a free entry; if none, it awaits a 100 ms timer and
rescans; if still none, it awaits `createPooledPage()` — which pushes the new
entry onto the pool's `pages` array — and then marks the obtained entry busy.
This is the whole-function, single-caller semantics with a trace of the
awaited steps (the interleaved semantics is `taskStep` below). -/

/-- Steps of one `acquirePage` call. -/
inductive AcqAct where
  | scan
  | sleep100
  | newContext
  | newPage
  | push (id : Nat)
  | mark (id : Nat)
deriving DecidableEq, Repr

/-- Result of one sequential `acquirePage` call. -/
structure AcqOut where
  pageId : Nat
  state : PoolState
  trace : List AcqAct
deriving DecidableEq, Repr

/-- `acquirePage` run without interference: the rescan after the 100 ms
timer sees the same state, and the overflow path pushes the new entry onto
`pages` before marking it busy. -/
def acquirePageSeq (s : PoolState) (now : Nat) : AcqOut :=
  match findFree s.pages with
  | some p => ⟨p.id, { s with pages := markUse s.pages p.id }, [.scan, .mark p.id]⟩
  | none =>
    match findFree s.pages with
    | some p =>
      ⟨p.id, { s with pages := markUse s.pages p.id }, [.scan, .sleep100, .scan, .mark p.id]⟩
    | none =>
      let i := s.nextId
      let s1 := pushFresh s now
      ⟨i, { s1 with pages := markUse s1.pages i },
        [.scan, .sleep100, .scan, .newContext, .newPage, .push i, .mark i]⟩

/-! ### Interleaved `acquirePage` (two concurrent callers)

Node's cooperative scheduling interleaves tasks at genuine suspension points
only: the 100 ms timer await and the playwright I/O awaits
(`browser.newContext()`, `context.newPage()`).  Each synchronous segment
between two suspension points runs to completion (the microtask continuation
of an `await` drains before the next macrotask), so:

* a successful scan (`find`) and the `inUse = true` mark on the found entry
  are one segment (lines 74/79 to 87 contain no `await` on that path);
* after `context.newPage()` resolves, `createPooledPage` pushes the fresh
  free entry and `acquirePage` marks it busy within the same drain.

The machine below has one program counter per acquiring task and fires whole
segments. -/

/-- Program counter of one interleaved `acquirePage` task (positions across
its suspension points). -/
inductive APc where
  | scanning
  | sleeping
  | creatingCtx
  | creatingPage
deriving DecidableEq, Repr

/-- One acquiring task: its position, and the id of the entry it obtained
once finished. -/
structure ATask where
  pc : APc
  holds : Option Nat
deriving DecidableEq, Repr

/-- The atomic scan-and-mark segment: `find` a free entry and set its
`inUse` flag in one step. -/
def claimScan (s : PoolState) : Option (Nat × PoolState) :=
  match findFree s.pages with
  | some p => some (p.id, { s with pages := markUse s.pages p.id })
  | none => none

/-- Fire the next synchronous segment of one `acquirePage` task; a finished
task does nothing. -/
def taskStep (pool : PoolState) (t : ATask) (now : Nat) : PoolState × ATask :=
  match t.holds with
  | some _ => (pool, t)
  | none =>
    match t.pc with
    | .scanning =>
      match claimScan pool with
      | some (i, pool1) => (pool1, { t with holds := some i })
      | none => (pool, { t with pc := .sleeping })
    | .sleeping =>
      match claimScan pool with
      | some (i, pool1) => (pool1, { t with holds := some i })
      | none => (pool, { t with pc := .creatingCtx })
    | .creatingCtx => (pool, { t with pc := .creatingPage })
    | .creatingPage =>
      let i := pool.nextId
      let pool1 := pushFresh pool now
      (( { pool1 with pages := markUse pool1.pages i } ), { t with holds := some i })

/-- Two `acquirePage` calls in flight. -/
structure Sys where
  pool : PoolState
  t0 : ATask
  t1 : ATask
deriving DecidableEq, Repr

/-- Fire one segment of the chosen task. -/
def sysStep (s : Sys) (who : Bool) (now : Nat) : Sys :=
  if who then
    let (pool1, t) := taskStep s.pool s.t1 now
    { s with pool := pool1, t1 := t }
  else
    let (pool1, t) := taskStep s.pool s.t0 now
    { s with pool := pool1, t0 := t }

/-- Reachability under arbitrary interleaving of the two tasks. -/
inductive Reach : Sys → Sys → Prop where
  | refl (s : Sys) : Reach s s
  | step (s u : Sys) (who : Bool) (now : Nat) :
      Reach s u → Reach s (sysStep u who now)

/-! ## Batch fan-out (`captureMany` in screenshot.ts)

`captureMany` starts one `capture` per request with `Promise.allSettled`
(which never rejects and never cancels siblings) and folds each settled
outcome into `{url, success, buffer | error}`; an absent rejection message
(or the empty string, which is falsy) falls back to `'Screenshot failed'`.
The world's behaviour for the i-th request is supplied by `world i`. -/

/-- One element of the `captureMany` result array. -/
structure BatchEntry where
  url : String
  success : Bool
  buffer : Option (List Nat)
  error : Option String
deriving DecidableEq, Repr

/-- Folding one settled `capture` outcome into a result entry
(`result.reason?.message || 'Screenshot failed'`). -/
def settleEntry (url : String) (r : Except String (List Nat)) : BatchEntry :=
  match r with
  | .ok b => { url := url, success := true, buffer := some b, error := none }
  | .error m =>
    { url := url, success := false, buffer := none,
      error := some (if m = "" then "Screenshot failed" else m) }

/-- `ScreenshotService.captureMany`. -/
def captureMany (world : Nat → CaptureEnv) (optsArray : List ScreenshotOptions) :
    List BatchEntry :=
  optsArray.enum.map (fun e => settleEntry e.2.url (capture (world e.1) e.2).1)

/-! ## The `/batch` handler's response assembly (index.ts)

After `captureMany` resolves, the handler builds
`results = screenshots.map((buffer, index) => ({url: urls[index], image:
buffer.toString('base64'), type: globalOptions?.type || 'png'}))` and
responds with `{count, durationMs, avgMs: Math.round(duration /
results.length), results}`.  Note `buffer` is a whole `captureMany` entry
(an object), so `buffer.toString('base64')` is `Object.prototype.toString`
— it yields the constant string `"[object Object]"` and drops the bytes,
the success flag and the error message. -/

/-- One element of the `/batch` JSON response's `results` array. -/
structure BatchItemJson where
  url : String
  image : String
  type : String
deriving DecidableEq, Repr

/-- The `/batch` JSON response (its exact field set). -/
structure BatchResponse where
  count : Nat
  durationMs : Nat
  avgMs : Nat
  results : List BatchItemJson
deriving DecidableEq, Repr

/-- `Object.prototype.toString` applied to a result entry (the argument
`'base64'` is ignored). -/
def jsObjectToString (_ : BatchEntry) : String := "[object Object]"

/-- `Math.round(a / b)` on non-negative integers (round half up). -/
def roundDiv (a b : Nat) : Nat := (2 * a + b) / (2 * b)

/-- The `/batch` handler's response for the given input URLs, shared output
kind, measured wall-clock duration and `captureMany` outcome. -/
def batchHandler (urls : List String) (optType : Option OutKind) (duration : Nat)
    (screenshots : List BatchEntry) : BatchResponse :=
  let results := screenshots.enum.map (fun e =>
    { url := urls.getD e.1 "", image := jsObjectToString e.2,
      type := outKindStr (optType.getD OutKind.png) : BatchItemJson })
  { count := results.length, durationMs := duration,
    avgMs := roundDiv duration results.length, results := results }

/-! ## Helper lemmas -/

/-- `runFinally` always completes normally (both fallible cleanup steps carry
`.catch(() => {})`) and performs unroute, blank navigation, release. -/
theorem runFinally_eq (env : CaptureEnv) :
    runFinally env = (Except.ok (), [Act.unrouteAll, Act.gotoBlank, Act.release]) := rfl

/-- `capture` unfolded: the primary outcome is the try block's outcome and the
trace is acquire, body, cleanup. -/
theorem capture_eq (env : CaptureEnv) (opts : ScreenshotOptions) :
    capture env opts =
      ((captureBody env opts).1,
       Act.acquire :: (captureBody env opts).2 ++
         [Act.unrouteAll, Act.gotoBlank, Act.release]) := rfl

/-- Membership in a sequenced step's trace comes from its own actions or from
the rest. -/
theorem mem_stepE {x : Act} {r : Except String Unit} {a : List Act}
    {rest : Except String (List Nat) × List Act}
    (hx : x ∈ (stepE r a rest).2) : x ∈ a ∨ x ∈ rest.2 := by
  cases r <;> simp [stepE] at hx <;> tauto

/-- The output step only ever performs a pdf export or a screenshot. -/
theorem mem_shootPart {x : Act} {env : CaptureEnv} {opts : ScreenshotOptions}
    (hx : x ∈ (shootPart env opts).2) :
    x = Act.exportPdf ∨ (∃ fp k q, x = Act.screenshot fp k q) := by
  unfold shootPart at hx
  split at hx
  · simp at hx; exact Or.inl hx
  · simp at hx; exact Or.inr ⟨_, _, _, hx⟩

/-- The delay step only ever performs a delay, a pdf export or a screenshot. -/
theorem mem_delayPart {x : Act} {env : CaptureEnv} {opts : ScreenshotOptions}
    (hx : x ∈ (delayPart env opts).2) :
    (∃ ms, x = Act.delay ms) ∨ x = Act.exportPdf ∨
      (∃ fp k q, x = Act.screenshot fp k q) := by
  unfold delayPart at hx
  split at hx
  · split at hx
    · rcases mem_stepE hx with h | h
      · simp at h; exact Or.inl ⟨_, h⟩
      · exact Or.inr (mem_shootPart h)
    · exact Or.inr (mem_shootPart hx)
  · exact Or.inr (mem_shootPart hx)

/-- The readiness step performs the scroll pass only in whole-page mode, and
an image wait whose scope is all images in whole-page mode and
viewport-only otherwise. -/
theorem mem_waitPart {x : Act} {env : CaptureEnv} {opts : ScreenshotOptions}
    (hx : x ∈ (waitPart env opts).2) :
    (opts.fullPage.getD false = true ∧ x = Act.scrollPass) ∨
    x = Act.waitImages (!(opts.fullPage.getD false)) 5000 ∨
    (∃ ms, x = Act.delay ms) ∨ x = Act.exportPdf ∨
    (∃ fp k q, x = Act.screenshot fp k q) := by
  unfold waitPart at hx
  cases hf : opts.fullPage.getD false
  · rw [hf] at hx
    simp only [Bool.false_eq_true, if_false] at hx
    rcases mem_stepE hx with h1 | h1
    · simp at h1; subst h1
      exact Or.inr (Or.inl rfl)
    · exact Or.inr (Or.inr (mem_delayPart h1))
  · rw [hf] at hx
    simp only [if_true] at hx
    rcases mem_stepE hx with h1 | h1
    · simp at h1; exact Or.inl ⟨rfl, h1⟩
    · rcases mem_stepE h1 with h2 | h2
      · simp at h2; subst h2
        exact Or.inr (Or.inl rfl)
      · exact Or.inr (Or.inr (mem_delayPart h2))

/-- Exhaustive shape of the actions a capture body can perform. -/
theorem mem_captureBody {x : Act} {env : CaptureEnv} {opts : ScreenshotOptions}
    (hx : x ∈ (captureBody env opts).2) :
    x = Act.installRoute ∨
    x = Act.setViewport (viewportOf opts).1 (viewportOf opts).2 ∨
    x = Act.goto opts.url "domcontentloaded" 30000 ∨
    (opts.fullPage.getD false = true ∧ x = Act.scrollPass) ∨
    x = Act.waitImages (!(opts.fullPage.getD false)) 5000 ∨
    (∃ ms, x = Act.delay ms) ∨ x = Act.exportPdf ∨
    (∃ fp k q, x = Act.screenshot fp k q) := by
  have hvp : x ∈ (vpPart env opts).2 →
      x = Act.setViewport (viewportOf opts).1 (viewportOf opts).2 ∨
      x = Act.goto opts.url "domcontentloaded" 30000 ∨
      (opts.fullPage.getD false = true ∧ x = Act.scrollPass) ∨
      x = Act.waitImages (!(opts.fullPage.getD false)) 5000 ∨
      (∃ ms, x = Act.delay ms) ∨ x = Act.exportPdf ∨
      (∃ fp k q, x = Act.screenshot fp k q) := by
    intro h
    unfold vpPart gotoPart at h
    rcases mem_stepE h with h1 | h1
    · simp at h1; exact Or.inl h1
    · rcases mem_stepE h1 with h2 | h2
      · simp at h2; exact Or.inr (Or.inl h2)
      · exact Or.inr (Or.inr (mem_waitPart h2))
  unfold captureBody at hx
  split at hx
  · rcases mem_stepE hx with h | h
    · simp at h; exact Or.inl h
    · exact Or.inr (hvp h)
  · exact Or.inr (hvp hx)

/-! ## Claim theorems -/

/-- C10: `shouldBlockUrl` returns true exactly when the URL matches some
compiled blocklist pattern under full-string anchored, case-insensitive glob
matching (`globMatch`, with `*` matching any run of characters); in
particular the Google Tag Manager script URL is blocked and the example.com
logo URL is not. -/
theorem shouldBlockUrl_anchored_glob :
    (∀ u, shouldBlockUrl u = true ↔ ∃ p ∈ BLOCKED_PATTERNS, globMatch p u = true) ∧
    shouldBlockUrl "https://www.googletagmanager.com/gtm.js" = true ∧
    shouldBlockUrl "https://example.com/logo.png" = false := by
  refine ⟨fun u => ?_, by decide, by decide⟩
  simp [shouldBlockUrl, List.any_eq_true]

/-- C1: on every exit path of `capture` — any outcome of any awaited step,
successful screenshot/PDF, navigation timeout, renderer failure or export
failure — the trace ends with clearing the interception hook, navigating to
the blank page and calling release (so release is never skipped), and the
primary outcome of the try block is the capture's outcome no matter how the
cleanup steps themselves behave (their rejections are swallowed and replace
nothing). -/
theorem capture_cleanup_always_runs :
    ∀ (env : CaptureEnv) (opts : ScreenshotOptions),
      (capture env opts).1 = (captureBody env opts).1 ∧
      (capture env opts).2 =
        Act.acquire :: (captureBody env opts).2 ++
          [Act.unrouteAll, Act.gotoBlank, Act.release] ∧
      Act.release ∈ (capture env opts).2 := by
  intro env opts
  refine ⟨rfl, rfl, ?_⟩
  rw [capture_eq]
  simp

/-- C7 (code bug evidence): the `/batch` handler's response contains only
`count`, `durationMs`, `avgMs` and `results` — two batches with the same
URLs and duration but different per-item outcomes (one success + one
failure vs. two failures) produce identical responses, so the response
cannot carry a success count or failure count; moreover every `image`
field is the constant `"[object Object]"` produced by calling
`Object.prototype.toString` on the result entry. -/
theorem batch_response_drops_outcome_fields :
    batchHandler ["https://example.com", "https://invalid-url.test"]
        (some OutKind.png) 5000
        [settleEntry "https://example.com" (Except.ok [137, 80, 78, 71, 13, 10, 26, 10]),
         settleEntry "https://invalid-url.test" (Except.error "net::ERR_NAME_NOT_RESOLVED")] =
      batchHandler ["https://example.com", "https://invalid-url.test"]
        (some OutKind.png) 5000
        [settleEntry "https://example.com" (Except.error "net::ERR_CONNECTION_REFUSED"),
         settleEntry "https://invalid-url.test" (Except.error "net::ERR_NAME_NOT_RESOLVED")] ∧
    (batchHandler ["https://example.com", "https://invalid-url.test"]
        (some OutKind.png) 5000
        [settleEntry "https://example.com" (Except.ok [137, 80, 78, 71, 13, 10, 26, 10]),
         settleEntry "https://invalid-url.test" (Except.error "net::ERR_NAME_NOT_RESOLVED")]) =
      { count := 2, durationMs := 5000, avgMs := 2500,
        results :=
          [{ url := "https://example.com", image := "[object Object]", type := "png" },
           { url := "https://invalid-url.test", image := "[object Object]", type := "png" }] } := by
  constructor <;> decide

/-- C8: every navigation `capture` performs goes to the requested URL waiting
only for `domcontentloaded` (initial document parse) with a 30000 ms
timeout, and a navigation rejection (e.g. the timeout) after the preceding
steps succeeded becomes the capture's failed primary outcome rather than an
unbounded wait. -/
theorem goto_domcontentloaded_bounded :
    ∀ (env : CaptureEnv) (opts : ScreenshotOptions),
      (∀ url wu tm, Act.goto url wu tm ∈ (capture env opts).2 →
        url = opts.url ∧ wu = "domcontentloaded" ∧ tm = 30000) ∧
      (env.routeResult = Except.ok () → env.viewportResult = Except.ok () →
        ∀ e, env.gotoResult = Except.error e →
          (capture env opts).1 = Except.error e) := by
  intro env opts
  constructor
  · intro url wu tm hx
    rw [capture_eq] at hx
    simp only [List.mem_cons, List.mem_append] at hx
    rcases hx with (h | h) | h | h | h
    · exact absurd h (by simp)
    · rcases mem_captureBody h with h1 | h1 | h1 | ⟨_, h1⟩ | h1 | ⟨ms, h1⟩ | h1 | ⟨fp, k, q, h1⟩ <;>
        simp_all
    · simp at h
    · simp at h
    · simp at h
  · intro hr hv e hg
    rw [capture_eq]
    by_cases hb : opts.blockAds.getD true = true <;>
      simp [captureBody, vpPart, gotoPart, stepE, hb, hr, hv, hg]

/-- Environment of a navigation-timeout run: every step succeeds except
`page.goto`, which rejects with a timeout error. -/
def gotoTimeoutEnv : CaptureEnv :=
  { routeResult := Except.ok (), viewportResult := Except.ok (),
    gotoResult := Except.error "Timeout 30000ms exceeded",
    scrollResult := Except.ok (), imagesResult := Except.ok (),
    delayResult := Except.ok (), pdfResult := Except.ok [],
    shotResult := Except.ok [], unrouteResult := Except.ok (),
    blankResult := Except.ok () }

/-- Witness for C8 at a concrete environment and request. -/
theorem goto_domcontentloaded_bounded_witness :
    (capture gotoTimeoutEnv { url := "https://example.com" }).1 =
      Except.error "Timeout 30000ms exceeded" ∧
    ("https://example.com" = ({ url := "https://example.com" } : ScreenshotOptions).url ∧
      "domcontentloaded" = "domcontentloaded" ∧ (30000 : Nat) = 30000) :=
  ⟨(goto_domcontentloaded_bounded gotoTimeoutEnv { url := "https://example.com" }).2
      rfl rfl _ rfl,
   (goto_domcontentloaded_bounded gotoTimeoutEnv { url := "https://example.com" }).1
      "https://example.com" "domcontentloaded" 30000 (by decide)⟩

/-- C5: the image wait resolves within the fixed 5-second timeout; it
resolves immediately (time 0) when no relevant image is pending; with
viewport-only scope it never waits on a non-intersecting image (dropping
such an image, even one that never settles, leaves the resolution time
unchanged); it resolves when the last relevant pending image settles or at
the timeout, whichever comes first (exactly at the timeout when some
relevant image never settles); and inside `capture` the wait always uses
the 5000 ms timeout, viewport-scoped exactly for non-whole-page captures. -/
theorem waitForImages_bounded_and_scoped :
    (∀ vo w h imgs, waitForImagesTime vo w h imgs 5000 ≤ 5000) ∧
    (∀ vo w h imgs, unloadedOf vo w h imgs = [] →
      waitForImagesTime vo w h imgs 5000 = 0) ∧
    (∀ w h img imgs, inViewport w h img = false →
      waitForImagesTime true w h (img :: imgs) 5000 =
        waitForImagesTime true w h imgs 5000) ∧
    (∀ vo w h imgs t, unloadedOf vo w h imgs ≠ [] →
      allSettleTime (unloadedOf vo w h imgs) = some t →
      waitForImagesTime vo w h imgs 5000 = min 5000 t) ∧
    (∀ vo w h imgs, unloadedOf vo w h imgs ≠ [] →
      allSettleTime (unloadedOf vo w h imgs) = none →
      waitForImagesTime vo w h imgs 5000 = 5000) ∧
    (∀ env opts vo tm, Act.waitImages vo tm ∈ (capture env opts).2 →
      tm = 5000 ∧ vo = !(opts.fullPage.getD false)) := by
  refine ⟨?_, ?_, ?_, ?_, ?_, ?_⟩
  · intro vo w h imgs
    unfold waitForImagesTime
    dsimp only
    split
    · simp
    · split
      · exact min_le_left _ _
      · exact le_refl _
  · intro vo w h imgs hempty
    simp [waitForImagesTime, hempty]
  · intro w h img imgs hiv
    have hsame : unloadedOf true w h (img :: imgs) = unloadedOf true w h imgs := by
      simp [unloadedOf, targetImagesOf, List.filter_cons, hiv]
    simp [waitForImagesTime, hsame]
  · intro vo w h imgs t hne hst
    have : (unloadedOf vo w h imgs).isEmpty = false := by
      simpa [List.isEmpty_iff] using hne
    simp [waitForImagesTime, this, hst]
  · intro vo w h imgs hne hst
    have : (unloadedOf vo w h imgs).isEmpty = false := by
      simpa [List.isEmpty_iff] using hne
    simp [waitForImagesTime, this, hst]
  · intro env opts vo tm hx
    rw [capture_eq] at hx
    simp only [List.mem_cons, List.mem_append] at hx
    rcases hx with (h | h) | h | h | h
    · exact absurd h (by simp)
    · rcases mem_captureBody h with h1 | h1 | h1 | ⟨_, h1⟩ | h1 | ⟨ms, h1⟩ | h1 | ⟨fp, k, q, h1⟩ <;>
        simp_all
    · simp at h
    · simp at h
    · simp at h

/-- Witness for C5: a viewport image settling at 1200 ms together with an
out-of-viewport image that never settles — the never-settling image is not
waited on, and the wait resolves at 1200 ms, before the timeout. -/
theorem waitForImages_bounded_and_scoped_witness :
    waitForImagesTime true 1280 720
        (⟨10000, 10050, 0, 50, false, none⟩ :: [⟨0, 50, 0, 50, false, some 1200⟩]) 5000 =
      waitForImagesTime true 1280 720 [⟨0, 50, 0, 50, false, some 1200⟩] 5000 ∧
    waitForImagesTime true 1280 720 [⟨0, 50, 0, 50, false, some 1200⟩] 5000 = min 5000 1200 :=
  ⟨waitForImages_bounded_and_scoped.2.2.1 1280 720 _ _ (by decide),
   waitForImages_bounded_and_scoped.2.2.2.1 true 1280 720 _ 1200 (by decide) (by decide)⟩

/-- Loop invariant for `scrollTicks`: starting at tick `k` with
`scrollDistance * k` pixels already scrolled, a run stopping after `n` ticks
stopped at the first tick whose (freshly re-read) height was reached by the
scrolled distance, and every earlier tick saw a height still exceeding the
distance scrolled so far. -/
theorem scrollTicks_go (h : Nat → Nat) :
    ∀ fuel k n, scrollTicks h fuel k (scrollDistance * k) = some n →
      k < n ∧ h (n - 1) ≤ scrollDistance * n ∧
      ∀ m, k ≤ m → m + 1 < n → scrollDistance * (m + 1) < h m := by
  intro fuel
  induction fuel with
  | zero => intro k n hx; simp [scrollTicks] at hx
  | succ fuel ih =>
    intro k n hx
    unfold scrollTicks at hx
    by_cases hc : h k ≤ scrollDistance * k + scrollDistance
    · rw [if_pos hc] at hx
      obtain rfl : k + 1 = n := by simpa using hx
      refine ⟨Nat.lt_succ_self k, by simpa [Nat.mul_succ] using hc, ?_⟩
      intro m hkm hmn
      exact absurd hmn (by omega)
    · rw [if_neg hc] at hx
      have hx1 : scrollTicks h fuel (k + 1) (scrollDistance * (k + 1)) = some n := by
        rw [Nat.mul_succ]; exact hx
      obtain ⟨h1, h2, h3⟩ := ih (k + 1) n hx1
      refine ⟨by omega, h2, ?_⟩
      intro m hkm hmn
      rcases Nat.eq_or_lt_of_le hkm with heq | hlt
      · subst heq
        rw [Nat.mul_succ]
        exact Nat.lt_of_not_le hc
      · exact h3 m hlt hmn

/-- Environment of a fully successful capture run. -/
def allOkEnv : CaptureEnv :=
  { routeResult := Except.ok (), viewportResult := Except.ok (),
    gotoResult := Except.ok (), scrollResult := Except.ok (),
    imagesResult := Except.ok (), delayResult := Except.ok (),
    pdfResult := Except.ok [37, 80, 68, 70],
    shotResult := Except.ok [137, 80, 78, 71],
    unrouteResult := Except.ok (), blankResult := Except.ok () }

/-- C9: a whole-page capture runs the lazy-load scroll pass immediately
before the all-images wait; no scroll pass ever runs for a viewport-only
capture; the scroll loop scrolls in fixed 300px increments re-reading the
current scrollable height at every tick — it stops at the first tick whose
freshly read height is covered by the scrolled distance, every earlier tick
having read a height still exceeding it — and afterwards jumps back to the
top and pauses 200 ms. -/
theorem scroll_pass_semantics :
    (∀ env opts, opts.fullPage = some true →
      env.routeResult = Except.ok () → env.viewportResult = Except.ok () →
      env.gotoResult = Except.ok () → env.scrollResult = Except.ok () →
      ∃ t1 t2, (capture env opts).2 =
        t1 ++ Act.scrollPass :: Act.waitImages false 5000 :: t2) ∧
    (∀ env opts, opts.fullPage.getD false = false →
      Act.scrollPass ∉ (capture env opts).2) ∧
    (∀ h fuel n, scrollTicks h fuel 0 0 = some n →
      0 < n ∧ h (n - 1) ≤ scrollDistance * n ∧
      ∀ m, m + 1 < n → scrollDistance * (m + 1) < h m) ∧
    (∀ h fuel n, scrollTicks h fuel 0 0 = some n →
      scrollToBottomTrace h fuel =
        some (List.replicate n (ScrollAct.scrollBy 300) ++
          [ScrollAct.scrollTop, ScrollAct.pause 200])) := by
  refine ⟨?_, ?_, ?_, ?_⟩
  · intro env opts hfp hr hv hg hs
    rw [capture_eq]
    have hfull : opts.fullPage.getD false = true := by rw [hfp]; rfl
    by_cases hb : opts.blockAds.getD true = true <;> cases hi : env.imagesResult
    · refine ⟨[Act.acquire, Act.installRoute,
        Act.setViewport (viewportOf opts).1 (viewportOf opts).2,
        Act.goto opts.url "domcontentloaded" 30000],
        [Act.unrouteAll, Act.gotoBlank, Act.release], ?_⟩
      simp [captureBody, vpPart, gotoPart, waitPart, stepE, hr, hv, hg, hs, hfull, hb, hi]
    · refine ⟨[Act.acquire, Act.installRoute,
        Act.setViewport (viewportOf opts).1 (viewportOf opts).2,
        Act.goto opts.url "domcontentloaded" 30000],
        (delayPart env opts).2 ++ [Act.unrouteAll, Act.gotoBlank, Act.release], ?_⟩
      simp [captureBody, vpPart, gotoPart, waitPart, stepE, hr, hv, hg, hs, hfull, hb, hi]
    · refine ⟨[Act.acquire,
        Act.setViewport (viewportOf opts).1 (viewportOf opts).2,
        Act.goto opts.url "domcontentloaded" 30000],
        [Act.unrouteAll, Act.gotoBlank, Act.release], ?_⟩
      simp [captureBody, vpPart, gotoPart, waitPart, stepE, hr, hv, hg, hs, hfull, hb, hi]
    · refine ⟨[Act.acquire,
        Act.setViewport (viewportOf opts).1 (viewportOf opts).2,
        Act.goto opts.url "domcontentloaded" 30000],
        (delayPart env opts).2 ++ [Act.unrouteAll, Act.gotoBlank, Act.release], ?_⟩
      simp [captureBody, vpPart, gotoPart, waitPart, stepE, hr, hv, hg, hs, hfull, hb, hi]
  · intro env opts hfp hx
    rw [capture_eq] at hx
    simp only [List.mem_cons, List.mem_append] at hx
    rcases hx with (h | h) | h | h | h
    · simp at h
    · rcases mem_captureBody h with h1 | h1 | h1 | ⟨hf1, h1⟩ | h1 | ⟨ms, h1⟩ | h1 | ⟨fp, k, q, h1⟩ <;>
        simp_all
    · simp at h
    · simp at h
    · simp at h
  · intro h fuel n hx
    obtain ⟨h1, h2, h3⟩ := scrollTicks_go h fuel 0 n (by simpa using hx)
    exact ⟨h1, h2, fun m hm => h3 m (Nat.zero_le m) hm⟩
  · intro h fuel n hx
    simp [scrollToBottomTrace, hx, scrollDistance]

/-- Witness for C9: a concrete whole-page run contains the scroll pass right
before the all-images wait, and on a page whose height grows from 400 to 700
during the pass the loop takes 3 ticks (stopping against the re-read height
of 700, not the initial 400). -/
theorem scroll_pass_semantics_witness :
    (∃ t1 t2, (capture allOkEnv { url := "https://example.com", fullPage := some true }).2 =
      t1 ++ Act.scrollPass :: Act.waitImages false 5000 :: t2) ∧
    (0 < 3 ∧ (fun k => if k = 0 then 400 else 700) (3 - 1) ≤ scrollDistance * 3 ∧
      ∀ m, m + 1 < 3 →
        scrollDistance * (m + 1) < (fun k => if k = 0 then 400 else 700) m) :=
  ⟨scroll_pass_semantics.1 allOkEnv { url := "https://example.com", fullPage := some true }
      rfl rfl rfl rfl rfl,
   scroll_pass_semantics.2.2.1 (fun k => if k = 0 then 400 else 700) 10 3 rfl⟩

/-- C6: `captureMany` produces one entry per request, in input order: the
i-th entry carries the i-th request's URL; a succeeding capture yields
`success = true` with its bytes; a failing capture yields `success = false`
with a non-empty error description; and the i-th entry depends only on the
i-th request's own world behaviour, so no sibling's failure can cancel or
degrade it. -/
theorem captureMany_independent_outcomes :
    ∀ (world : Nat → CaptureEnv) (optsArray : List ScreenshotOptions),
      (captureMany world optsArray).length = optsArray.length ∧
      (∀ i o, optsArray[i]? = some o →
        ∃ e, (captureMany world optsArray)[i]? = some e ∧
          e.url = o.url ∧
          (∀ b, (capture (world i) o).1 = Except.ok b →
            e.success = true ∧ e.buffer = some b) ∧
          (∀ m, (capture (world i) o).1 = Except.error m →
            e.success = false ∧ ∃ s, e.error = some s ∧ s ≠ "")) ∧
      (∀ (world2 : Nat → CaptureEnv) i, world2 i = world i →
        (captureMany world2 optsArray)[i]? = (captureMany world optsArray)[i]?) := by
  intro world optsArray
  refine ⟨by simp [captureMany], ?_, ?_⟩
  · intro i o hio
    refine ⟨settleEntry o.url (capture (world i) o).1, ?_, ?_, ?_, ?_⟩
    · simp [captureMany, List.getElem?_map, List.getElem?_enum, hio]
    · cases hc : (capture (world i) o).1 <;> simp [settleEntry, hc]
    · intro b hb; simp [settleEntry, hb]
    · intro m hm
      refine ⟨by simp [settleEntry, hm], ?_⟩
      by_cases hme : m = ""
      · exact ⟨"Screenshot failed", by simp [settleEntry, hm, hme], by simp⟩
      · exact ⟨m, by simp [settleEntry, hm, hme], hme⟩
  · intro world2 i hw
    simp only [captureMany, List.getElem?_map, List.getElem?_enum]
    cases optsArray[i]? <;> simp [hw]

/-- World of a two-request batch: the first request's run succeeds fully, the
second request's navigation rejects. -/
def mixedWorld : Nat → CaptureEnv := fun i => if i = 0 then allOkEnv else gotoTimeoutEnv

/-- The two batch requests of the witness scenario. -/
def twoReqs : List ScreenshotOptions :=
  [{ url := "https://example.com" }, { url := "https://invalid-url.test" }]

/-- Witness for C6 at the concrete two-request batch (one success, one
navigation failure). -/
theorem captureMany_independent_outcomes_witness :
    (captureMany mixedWorld twoReqs).length = 2 ∧
    (∃ e, (captureMany mixedWorld twoReqs)[0]? = some e ∧
      e.url = ({ url := "https://example.com" } : ScreenshotOptions).url ∧
      (∀ b, (capture (mixedWorld 0) { url := "https://example.com" }).1 = Except.ok b →
        e.success = true ∧ e.buffer = some b) ∧
      (∀ m, (capture (mixedWorld 0) { url := "https://example.com" }).1 = Except.error m →
        e.success = false ∧ ∃ s, e.error = some s ∧ s ≠ "")) ∧
    (∃ e, (captureMany mixedWorld twoReqs)[1]? = some e ∧
      e.url = ({ url := "https://invalid-url.test" } : ScreenshotOptions).url ∧
      (∀ b, (capture (mixedWorld 1) { url := "https://invalid-url.test" }).1 = Except.ok b →
        e.success = true ∧ e.buffer = some b) ∧
      (∀ m, (capture (mixedWorld 1) { url := "https://invalid-url.test" }).1 = Except.error m →
        e.success = false ∧ ∃ s, e.error = some s ∧ s ≠ "")) :=
  ⟨(captureMany_independent_outcomes mixedWorld twoReqs).1,
   (captureMany_independent_outcomes mixedWorld twoReqs).2.1 0 _ rfl,
   (captureMany_independent_outcomes mixedWorld twoReqs).2.1 1 _ rfl⟩

/-- A pool whose two tracked pages are both busy. -/
def busyPool : PoolState :=
  { pages := [{ id := 0, inUse := true, createdAt := 0 },
              { id := 1, inUse := true, createdAt := 0 }], nextId := 2 }

/-- C4 counterexample: when the pool stays exhausted through the rescan, the
"overflow" context `acquirePage` creates is pushed into the pool's tracked
`pages` array — it is counted by `getStats`, and at a later over-age release
it is retired (its destruction awaited) and replaced, exactly like a pooled
context.  This contradicts the claim that the overflow context is untracked
and exempt from recycling and age-based retirement. -/
theorem overflow_context_is_tracked :
    (acquirePageSeq busyPool 1000).pageId = 2 ∧
    ((acquirePageSeq busyPool 1000).state.pages.filter (fun p => p.id = 2)).length = 1 ∧
    (acquirePageSeq busyPool 1000).state.pages.length = busyPool.pages.length + 1 ∧
    (getStats (acquirePageSeq busyPool 1000).state).1 = 3 ∧
    RelAct.closeContext 2 ∈
      (releaseRun (acquirePageSeq busyPool 1000).state 2 1000 400000).awaited ∧
    RelAct.createReplacement ∈
      (releaseRun (acquirePageSeq busyPool 1000).state 2 1000 400000).spawned := by
  decide

/-- C4 amended: with no free context, `acquirePage` waits once (100 ms),
rescans, and then creates a fresh context that is pushed into the tracked
pool (exceeding the configured capacity by one) and handed to the caller
marked busy; the caller always gets a context — but the new context is
tracked like any other, not an untracked overflow. -/
theorem acquire_overflow_semantics :
    ∀ (s : PoolState) (now : Nat), findFree s.pages = none →
      (acquirePageSeq s now).trace =
        [AcqAct.scan, AcqAct.sleep100, AcqAct.scan, AcqAct.newContext, AcqAct.newPage,
         AcqAct.push s.nextId, AcqAct.mark s.nextId] ∧
      (acquirePageSeq s now).pageId = s.nextId ∧
      (acquirePageSeq s now).state.pages.length = s.pages.length + 1 ∧
      (acquirePageSeq s now).state.pages.any (fun p => p.id = s.nextId && p.inUse) = true := by
  intro s now hf
  simp only [acquirePageSeq, hf]
  simp [pushFresh, markUse, List.any_append]

/-- Witness for C4's amended claim at the concrete exhausted pool. -/
theorem acquire_overflow_semantics_witness :
    (acquirePageSeq busyPool 1000).pageId = busyPool.nextId ∧
    (acquirePageSeq busyPool 1000).state.pages.length = busyPool.pages.length + 1 :=
  ⟨(acquire_overflow_semantics busyPool 1000 rfl).2.1,
   (acquire_overflow_semantics busyPool 1000 rfl).2.2.1⟩

/-- A pool holding an over-age busy page (id 0, created at time 0) and a
fresh free one. -/
def agedPool : PoolState :=
  { pages := [{ id := 0, inUse := true, createdAt := 0 },
              { id := 1, inUse := false, createdAt := 250000 }], nextId := 2 }

/-- C3 counterexample: when the released context is over-age, the
`context.close()` destruction is among the operations the releasing caller's
`await release()` waits on — destruction blocks the releasing caller,
contrary to the claim (only the replacement creation is fire-and-forget). -/
theorem release_destruction_is_awaited :
    RelAct.closeContext 0 ∈ (releaseRun agedPool 0 0 301000).awaited := by decide

/-- The flag update `release` applies first (`inUse = false`) keeps the id. -/
theorem markFree_id (p : PooledPage) (pid : Nat) :
    (if p.id = pid then { p with inUse := false } else p).id = p.id := by
  split <;> rfl

/-- Removing the entries carrying a given id from a list with pairwise
distinct ids, one of which carries it, shrinks the list by exactly one. -/
theorem length_filter_ne_of_nodup_ids :
    ∀ (l : List PooledPage) (pid : Nat), (l.map (fun p => p.id)).Nodup →
      (∃ p ∈ l, p.id = pid) →
      (l.filter (fun p => ¬p.id = pid)).length + 1 = l.length := by
  intro l pid
  induction l with
  | nil => intro h1 h2; simp at h2
  | cons a l ih =>
    intro hnd hmem
    simp only [List.map_cons, List.nodup_cons] at hnd
    obtain ⟨ha, hnd1⟩ := hnd
    by_cases hapid : a.id = pid
    · have hall : ∀ p ∈ l, ¬p.id = pid := by
        intro p hp hpe
        have hmm : p.id ∈ l.map (fun p => p.id) := List.mem_map_of_mem _ hp
        rw [hpe, ← hapid] at hmm
        exact ha hmm
      have hkeep : l.filter (fun p => ¬p.id = pid) = l :=
        List.filter_eq_self.mpr (fun p hp => by simpa using hall p hp)
      rw [List.filter_cons, if_neg (by simp [hapid]), hkeep]
      simp
    · have hmem1 : ∃ p ∈ l, p.id = pid := by
        rcases hmem with ⟨p, hp, hpe⟩
        rcases List.mem_cons.mp hp with heq | hp1
        · subst heq; exact absurd hpe hapid
        · exact ⟨p, hp1, hpe⟩
      have hlen := ih hnd1 hmem1
      rw [List.filter_cons, if_pos (by simp [hapid])]
      simp only [List.length_cons]
      omega

/-- C3 amended: releasing a tracked over-age context removes it from the
pool, destroys it and starts a replacement creation; the replacement is
fire-and-forget (not among the awaited operations) and restores the previous
pool size once it lands — but the destruction itself IS awaited by the
releasing caller (its errors swallowed), so destruction does block the
releasing caller. -/
theorem release_retirement_semantics :
    ∀ (s : PoolState) (pid createdAt now : Nat),
      maxPageAge < now - createdAt →
      (s.pages.map (fun p => p.id)).Nodup →
      (∃ p ∈ s.pages, p.id = pid) →
      (releaseRun s pid createdAt now).state.pages.all (fun p => ¬p.id = pid) = true ∧
      (releaseRun s pid createdAt now).awaited =
        [RelAct.markFree pid, RelAct.closeContext pid] ∧
      (releaseRun s pid createdAt now).spawned = [RelAct.createReplacement] ∧
      RelAct.createReplacement ∉ (releaseRun s pid createdAt now).awaited ∧
      (releaseRun s pid createdAt now).state.pages.length + 1 = s.pages.length ∧
      (pushFresh (releaseRun s pid createdAt now).state now).pages.length = s.pages.length := by
  intro s pid cAt now hage hnd hmem
  have hmem1 : ∃ q ∈ s.pages.map
      (fun p => if p.id = pid then { p with inUse := false } else p), q.id = pid := by
    rcases hmem with ⟨p, hp, hpe⟩
    exact ⟨_, List.mem_map_of_mem _ hp, by rw [markFree_id]; exact hpe⟩
  have hany : (s.pages.map
      (fun p => if p.id = pid then { p with inUse := false } else p)).any
      (fun p => p.id = pid) = true := by
    rw [List.any_eq_true]
    rcases hmem1 with ⟨q, hq, hqe⟩
    exact ⟨q, hq, by simp [hqe]⟩
  have hnd1 : ((s.pages.map
      (fun p => if p.id = pid then { p with inUse := false } else p)).map
      (fun p => p.id)).Nodup := by
    rw [List.map_map]
    have : ((fun p : PooledPage => p.id) ∘
        fun p => if p.id = pid then { p with inUse := false } else p) =
        fun p : PooledPage => p.id := by
      funext p
      exact markFree_id p pid
    rw [this]
    exact hnd
  have hlen := length_filter_ne_of_nodup_ids _ pid hnd1 hmem1
  rw [List.length_map] at hlen
  simp only [releaseRun, if_pos hage, if_pos hany]
  refine ⟨?_, ?_, ?_, ?_, ?_, ?_⟩
  · simp only [List.all_eq_true, List.mem_filter]
    intro p hp
    exact hp.2
  · trivial
  · trivial
  · simp
  · exact hlen
  · simp only [pushFresh, List.length_append, List.length_cons, List.length_nil]
    omega

/-- Witness for C3's amended claim at the concrete over-age release. -/
theorem release_retirement_semantics_witness :
    (releaseRun agedPool 0 0 301000).awaited = [RelAct.markFree 0, RelAct.closeContext 0] ∧
    (releaseRun agedPool 0 0 301000).spawned = [RelAct.createReplacement] ∧
    (pushFresh (releaseRun agedPool 0 0 301000).state 301000).pages.length =
      agedPool.pages.length :=
  have h := release_retirement_semantics agedPool 0 0 301000 (by decide) (by decide)
    ⟨{ id := 0, inUse := true, createdAt := 0 }, by decide, rfl⟩
  ⟨h.2.1, h.2.2.1, h.2.2.2.2.2⟩

/-! ## The acquire/acquire race invariant (C2) -/

/-- Well-formed pool: pairwise distinct ids, all below the fresh-id supply. -/
def PoolWF (s : PoolState) : Prop :=
  (s.pages.map (fun p => p.id)).Nodup ∧ ∀ p ∈ s.pages, p.id < s.nextId

/-- A finished task's context is a tracked page whose busy flag is set. -/
def holdsOK (pool : PoolState) (t : ATask) : Prop :=
  ∀ i, t.holds = some i → ∃ p ∈ pool.pages, p.id = i ∧ p.inUse = true

/-- System invariant: well-formed pool, every held context busy and tracked,
and the two tasks never hold the same context. -/
def SysInv (s : Sys) : Prop :=
  PoolWF s.pool ∧ holdsOK s.pool s.t0 ∧ holdsOK s.pool s.t1 ∧
    ∀ i j, s.t0.holds = some i → s.t1.holds = some j → i ≠ j

/-- Two fresh `acquirePage` tasks over a given pool. -/
def initSys (pool : PoolState) : Sys :=
  { pool := pool, t0 := { pc := APc.scanning, holds := none },
    t1 := { pc := APc.scanning, holds := none } }

/-- `markUse` keeps the id list. -/
theorem markUse_map_id (l : List PooledPage) (i : Nat) :
    (markUse l i).map (fun p => p.id) = l.map (fun p => p.id) := by
  unfold markUse
  rw [List.map_map]
  refine List.map_congr_left (fun p _ => ?_)
  simp only [Function.comp]
  split <;> rfl

/-- A successful claim takes a tracked free page and only sets its flag. -/
theorem claimScan_some {s : PoolState} {i : Nat} {s1 : PoolState}
    (h : claimScan s = some (i, s1)) :
    (∃ p ∈ s.pages, p.id = i ∧ p.inUse = false) ∧
      s1 = { s with pages := markUse s.pages i } := by
  unfold claimScan at h
  cases hf : findFree s.pages with
  | none => rw [hf] at h; simp at h
  | some p =>
    rw [hf] at h
    simp only [Option.some.injEq, Prod.mk.injEq] at h
    obtain ⟨rfl, rfl⟩ := h
    refine ⟨⟨p, ?_, rfl, ?_⟩, rfl⟩
    · exact List.mem_of_find?_eq_some hf
    · have := List.find?_some hf
      simpa using this

/-- Membership transfer into `markUse`: a busy page stays busy. -/
theorem markUse_keeps_busy {l : List PooledPage} {j : Nat} {i : Nat}
    (h : ∃ p ∈ l, p.id = j ∧ p.inUse = true) :
    ∃ p ∈ markUse l i, p.id = j ∧ p.inUse = true := by
  rcases h with ⟨p, hp, hpj, hpu⟩
  by_cases hpi : p.id = i
  · exact ⟨{ p with inUse := true }, by
      unfold markUse
      have := List.mem_map_of_mem
        (fun q => if q.id = i then { q with inUse := true } else q) hp
      simpa [hpi] using this, by simpa using hpj, rfl⟩
  · exact ⟨p, by
      unfold markUse
      have := List.mem_map_of_mem
        (fun q => if q.id = i then { q with inUse := true } else q) hp
      simpa [hpi] using this, hpj, hpu⟩

/-- The freshly claimed page is busy and tracked after the claim. -/
theorem markUse_now_busy {l : List PooledPage} {i : Nat}
    (h : ∃ p ∈ l, p.id = i) : ∃ p ∈ markUse l i, p.id = i ∧ p.inUse = true := by
  rcases h with ⟨p, hp, hpi⟩
  refine ⟨{ p with inUse := true }, ?_, by simpa using hpi, rfl⟩
  unfold markUse
  have := List.mem_map_of_mem
    (fun q => if q.id = i then { q with inUse := true } else q) hp
  simpa [hpi] using this

/-- Pages of a well-formed pool are determined by their id. -/
theorem nodup_id_inj {l : List PooledPage}
    (hnd : (l.map (fun p => p.id)).Nodup) {p q : PooledPage}
    (hp : p ∈ l) (hq : q ∈ l) (he : p.id = q.id) : p = q :=
  List.inj_on_of_nodup_map hnd hp hq he

/-- Every page of `markUse l i` carries the id of a page of `l`. -/
theorem markUse_id_mem {l : List PooledPage} {i : Nat} {p : PooledPage}
    (hp : p ∈ markUse l i) : ∃ q ∈ l, q.id = p.id := by
  unfold markUse at hp
  rcases List.mem_map.mp hp with ⟨q, hq, rfl⟩
  exact ⟨q, hq, by split <;> rfl⟩

/-- One segment of one acquiring task preserves pool well-formedness, makes
every obtained context busy and tracked, keeps every other holder's context
busy and tracked, and any newly obtained context is distinct from every
context currently held by anyone. -/
theorem taskStep_spec {pool : PoolState} {t : ATask} {now : Nat}
    (hwf : PoolWF pool) (hok : holdsOK pool t) :
    PoolWF (taskStep pool t now).1 ∧
    holdsOK (taskStep pool t now).1 (taskStep pool t now).2 ∧
    (∀ u : ATask, holdsOK pool u → holdsOK (taskStep pool t now).1 u) ∧
    (∀ i, (taskStep pool t now).2.holds = some i →
      t.holds = some i ∨
      ∀ u : ATask, holdsOK pool u → ∀ j, u.holds = some j → j ≠ i) := by
  obtain ⟨hnd, hbound⟩ := hwf
  have hclaim : ∀ i pool1, claimScan pool = some (i, pool1) →
      PoolWF pool1 ∧ holdsOK pool1 { t with holds := some i } ∧
      (∀ u : ATask, holdsOK pool u → holdsOK pool1 u) ∧
      (∀ u : ATask, holdsOK pool u → ∀ j, u.holds = some j → j ≠ i) := by
    intro i pool1 hcs
    obtain ⟨⟨p, hp, hpi, hpfree⟩, rfl⟩ := claimScan_some hcs
    refine ⟨⟨?_, ?_⟩, ?_, ?_, ?_⟩
    · rw [markUse_map_id]; exact hnd
    · intro q hq
      rcases markUse_id_mem hq with ⟨q0, hq0, hqe⟩
      rw [← hqe]
      exact hbound q0 hq0
    · intro j hj
      simp only [Option.some.injEq] at hj
      subst hj
      exact markUse_now_busy ⟨p, hp, hpi⟩
    · intro u hu j hj
      exact markUse_keeps_busy (hu j hj)
    · intro u hu j hj hji
      subst hji
      rcases hu j hj with ⟨q, hq, hqj, hqbusy⟩
      have : p = q := nodup_id_inj hnd hp hq (by rw [hpi, hqj])
      subst this
      rw [hpfree] at hqbusy
      exact Bool.false_ne_true hqbusy
  cases hth : t.holds with
  | some k =>
    simp only [taskStep, hth]
    exact ⟨⟨hnd, hbound⟩, hok, fun u hu => hu, fun i hi => Or.inl hi⟩
  | none =>
    cases hpc : t.pc with
    | scanning =>
      simp only [taskStep, hth]
      cases hcs : claimScan pool with
      | some pr =>
        obtain ⟨i, pool1⟩ := pr
        obtain ⟨h1, h2, h3, h4⟩ := hclaim i pool1 hcs
        rw [hpc]
        simp only [hcs]
        exact ⟨h1, h2, h3, fun i2 hi2 => by
          simp only [Option.some.injEq] at hi2
          subst hi2
          exact Or.inr h4⟩
      | none =>
        rw [hpc]
        simp only [hcs]
        exact ⟨⟨hnd, hbound⟩, fun i hi => by simp at hi,
          fun u hu => hu, fun i hi => by simp at hi⟩
    | sleeping =>
      simp only [taskStep, hth]
      cases hcs : claimScan pool with
      | some pr =>
        obtain ⟨i, pool1⟩ := pr
        obtain ⟨h1, h2, h3, h4⟩ := hclaim i pool1 hcs
        rw [hpc]
        simp only [hcs]
        exact ⟨h1, h2, h3, fun i2 hi2 => by
          simp only [Option.some.injEq] at hi2
          subst hi2
          exact Or.inr h4⟩
      | none =>
        rw [hpc]
        simp only [hcs]
        exact ⟨⟨hnd, hbound⟩, fun i hi => by simp at hi, fun u hu => hu,
          fun i hi => by simp at hi⟩
    | creatingCtx =>
      simp only [taskStep, hth, hpc]
      exact ⟨⟨hnd, hbound⟩, fun i hi => by simp at hi, fun u hu => hu,
        fun i hi => by simp at hi⟩
    | creatingPage =>
      simp only [taskStep, hth, hpc]
      have hfreshmem : ∃ p ∈ (pushFresh pool now).pages, p.id = pool.nextId :=
        ⟨{ id := pool.nextId, inUse := false, createdAt := now },
          by simp [pushFresh], rfl⟩
      refine ⟨⟨?_, ?_⟩, ?_, ?_, ?_⟩
      · rw [markUse_map_id]
        simp only [pushFresh, List.map_append, List.map_cons, List.map_nil]
        rw [List.nodup_append]
        refine ⟨hnd, List.nodup_singleton _, ?_⟩
        intro a ha hb
        simp only [List.mem_singleton] at hb
        subst hb
        rcases List.mem_map.mp ha with ⟨q, hq, hqe⟩
        exact absurd (hqe ▸ hbound q hq) (lt_irrefl _)
      · intro q hq
        rcases markUse_id_mem hq with ⟨q0, hq0, hqe⟩
        simp only [pushFresh, List.mem_append, List.mem_singleton] at hq0
        simp only [pushFresh]
        rcases hq0 with hq0 | hq0
        · rw [← hqe]; exact Nat.lt_succ_of_lt (hbound q0 hq0)
        · subst hq0; rw [← hqe]; exact Nat.lt_succ_self _
      · intro i hi
        simp only [Option.some.injEq] at hi
        subst hi
        exact markUse_now_busy hfreshmem
      · intro u hu j hj
        rcases hu j hj with ⟨q, hq, hqj, hqbusy⟩
        exact markUse_keeps_busy ⟨q, by simp [pushFresh, List.mem_append, hq], hqj, hqbusy⟩
      · intro i hi
        simp only [Option.some.injEq] at hi
        subst hi
        refine Or.inr (fun u hu j hj => ?_)
        rcases hu j hj with ⟨q, hq, hqj, hqbusy⟩
        have := hbound q hq
        omega

/-- One interleaving step preserves the system invariant. -/
theorem sysStep_inv {s : Sys} (h : SysInv s) (who : Bool) (now : Nat) :
    SysInv (sysStep s who now) := by
  obtain ⟨hwf, h0, h1, hne⟩ := h
  cases who
  · obtain ⟨k1, k2, k3, k4⟩ := @taskStep_spec s.pool s.t0 now hwf h0
    refine ⟨k1, k2, k3 s.t1 h1, ?_⟩
    intro i j hi hj
    simp only [sysStep] at hi hj ⊢
    rcases k4 i hi with hold | hfresh
    · exact hne i j hold hj
    · exact (hfresh s.t1 h1 j hj).symm
  · obtain ⟨k1, k2, k3, k4⟩ := @taskStep_spec s.pool s.t1 now hwf h1
    refine ⟨k1, k3 s.t0 h0, k2, ?_⟩
    intro i j hi hj
    rcases k4 j hj with hold | hfresh
    · exact hne i j hi hold
    · exact hfresh s.t0 h0 i hi

/-- C2: starting two concurrent `acquirePage` calls on a well-formed pool,
under every interleaving of their segments (the scan-and-mark segment being
the code's synchronous segment, hence indivisible), the two callers never
obtain the same pooled context: in every reachable state the contexts they
hold are distinct — at most one capture holds a given context's busy flag. -/
theorem acquire_no_double_claim :
    ∀ (pool : PoolState) (s : Sys), PoolWF pool → Reach (initSys pool) s →
      ∀ i j, s.t0.holds = some i → s.t1.holds = some j → i ≠ j := by
  intro pool s hwf hr
  have h0 : SysInv (initSys pool) := by
    refine ⟨hwf, ?_, ?_, ?_⟩
    · intro i hi; simp [initSys] at hi
    · intro i hi; simp [initSys] at hi
    · intro i j hi hj; simp [initSys] at hi
  have hinv : SysInv s := by
    induction hr with
    | refl => exact h0
    | step u who now hru ih => exact sysStep_inv ih who now
  exact hinv.2.2.2

/-- A pool with two free pages. -/
def freePool : PoolState :=
  { pages := [{ id := 0, inUse := false, createdAt := 0 },
              { id := 1, inUse := false, createdAt := 0 }], nextId := 2 }

/-- Witness for C2: a concrete interleaving in which both tasks finish; they
hold pages 0 and 1, and the theorem yields their distinctness. -/
theorem acquire_no_double_claim_witness :
    (sysStep (sysStep (initSys freePool) false 3) true 4).t0.holds = some 0 ∧
    (sysStep (sysStep (initSys freePool) false 3) true 4).t1.holds = some 1 ∧
    (0 : Nat) ≠ 1 :=
  ⟨by decide, by decide,
   acquire_no_double_claim freePool (sysStep (sysStep (initSys freePool) false 3) true 4)
     ⟨by decide, by decide⟩
     (Reach.step (initSys freePool) (sysStep (initSys freePool) false 3) true 4
       (Reach.step (initSys freePool) (initSys freePool) false 3
         (Reach.refl (initSys freePool))))
     0 1 (by decide) (by decide)⟩
